import Mathlib

/-
Verification of the line-oriented markdown transformation pipeline of
dokuwiki2wikijs.py: link/embed rewriting with math-span exclusion
(find_next_link_start, convert_links), admonition-block rewriting
(wrap_kind, convert_wrap), and front-matter synthesis
(first_heading_or_filename, get_metadata, add_metadata).

Lines are modelled as lists of characters; Python regular-expression
behaviour for the two patterns used by the source is implemented
directly (leftmost match, non-greedy captures with backtracking).
-/

/-- A text line, modelled as a list of characters. -/
abbrev Line := List Char

/-- Characters of a string literal. -/
def S (s : String) : Line := s.data

/-- Does the first list occur at the start of the second (str.startswith)? -/
def leads : Line → Line → Bool
  | [], _ => true
  | _ :: _, [] => false
  | p :: ps, c :: cs => p == c && leads ps cs

/-- Substring containment (Python "pat in s"). -/
def hasSub (pat : Line) : Line → Bool
  | [] => leads pat []
  | c :: r => leads pat (c :: r) || hasSub pat r

/-- Worker for Python str.replace: in skip mode (positive counter) the
remaining characters of a just-replaced occurrence are consumed without
output; in scan mode a matching occurrence emits the replacement and
enters skip mode for the rest of the occurrence. -/
def replaceAllGo (pat rep : Line) : Nat → Line → Line
  | _, [] => []
  | Nat.succ k, _ :: r => replaceAllGo pat rep k r
  | 0, c :: r =>
    if leads pat (c :: r) then rep ++ replaceAllGo pat rep (pat.length - 1) r
    else c :: replaceAllGo pat rep 0 r

/-- Python str.replace: replace every occurrence of pat, left to right,
non-overlapping.  (Only used with non-empty patterns, as in the source.) -/
def replaceAll (pat rep : Line) (l : Line) : Line :=
  replaceAllGo pat rep 0 l

/-- Python line.split(sep, 1) unpacked into two pieces: none when the
separator is absent (where the source would raise ValueError). -/
def splitFirst (ch : Char) : Line → Option (Line × Line)
  | [] => none
  | c :: r =>
    if c == ch then some ([], r)
    else (splitFirst ch r).map (fun ab => (c :: ab.1, ab.2))

/-- Python list.insert: insert at index n, clamped to the length. -/
def insertAt {α : Type} (n : Nat) (x : α) : List α → List α
  | [] => [x]
  | c :: r => if n = 0 then x :: c :: r else c :: insertAt (n - 1) x r

/-- Python s.partition(sep)[2] for a one-character separator: everything
after the first occurrence, empty when the separator is absent. -/
def partAfter (ch : Char) : Line → Line
  | [] => []
  | c :: r => if c == ch then r else partAfter ch r

/-- The whitespace set of Python str.strip(). -/
def isPySpace (c : Char) : Bool :=
  c == ' ' || c == '\t' || c == '\n' || c == '\r' || c == '\x0b' || c == '\x0c'

/-- Python str.strip(). -/
def pyStrip (l : Line) : Line :=
  ((l.dropWhile isPySpace).reverse.dropWhile isPySpace).reverse

/-- Python str.split(sep) for a one-character separator: adjacent
separators produce empty pieces, the empty string yields one empty piece. -/
def splitOnChar (ch : Char) : Line → List Line
  | [] => [[]]
  | c :: r =>
    if c == ch then [] :: splitOnChar ch r
    else
      match splitOnChar ch r with
      | w :: ws => (c :: w) :: ws
      | [] => [[c]]

/-- Indices of the non-overlapping occurrences of the two-character
sequence of two dollar signs, scanning left to right (re.finditer on the
opening/closing delimiters of math spans). -/
def dollarIdx : Line → Nat → List Nat
  | c1 :: c2 :: r, i =>
    if c1 == '$' && c2 == '$' then i :: dollarIdx r (i + 2)
    else dollarIdx (c2 :: r) (i + 1)
  | _, _ => []

/-- Pair up consecutive delimiter occurrences into character spans
(start of the opening delimiter, one past the end of the closing one). -/
def pairUp : List Nat → List (Nat × Nat)
  | a :: b :: rest => (a, b + 2) :: pairUp rest
  | _ => []

/-- Spans of the non-greedy math-span regular expression on a line:
the same ranges re.finditer produces for the pattern matching a
dollar-dollar delimited region. -/
def mathSpans (l : Line) : List (Nat × Nat) := pairUp (dollarIdx l 0)

/-- Is index i inside one of the spans? -/
def inSpans (spans : List (Nat × Nat)) (i : Nat) : Bool :=
  spans.any (fun se => se.1 ≤ i && i < se.2)

/-- Scan for the next link/embed opening marker from absolute index i,
skipping markers that start inside a math span; finditer semantics, so a
found marker consumes two characters. -/
def markerScan (spans : List (Nat × Nat)) : Line → Nat → Option Nat
  | c1 :: c2 :: r, i =>
    if (c1 == '[' && c2 == '[') || (c1 == '{' && c2 == '{') then
      if inSpans spans i then markerScan spans r (i + 2) else some i
    else markerScan spans (c2 :: r) (i + 1)
  | _, _ => none

/-- find_next_link_start of the source: the position of the next opening
marker at or after pos that is not inside a math span of the line
(none where the source returns -1). -/
def find_next_link_start (l : Line) (pos : Nat) : Option Nat :=
  markerScan (mathSpans l) (l.drop pos) pos

/-- Does the line start with two closing-marker characters; if so, return
the remainder after them.  Both closing forms are accepted by the pattern
regardless of which opening form matched. -/
def closeSplit : Line → Option Line
  | c1 :: c2 :: r =>
    if (c1 == ']' && c2 == ']') || (c1 == '}' && c2 == '}') then some r else none
  | _ => none

/-- Backtracking for the non-greedy text capture after the pipe: starting
with one character, extend until a closing marker follows; returns the
captured text and the remainder after the closing marker. -/
def textScan (acc : Line) : Line → Option (Line × Line)
  | [] => none
  | c :: r =>
    match closeSplit r with
    | some r2 => some (acc ++ [c], r2)
    | none => textScan (acc ++ [c]) r

/-- Backtracking for the non-greedy uri capture (one or more characters,
no pipe): at each length, first try the optional pipe-plus-text group,
then a closing marker, else extend.  Returns (uri, optional text,
remainder after the closing marker). -/
def uriScan : Line → Line → Option (Line × Option Line × Line)
  | _, [] => none
  | acc, c :: r =>
    if c == '|' then none
    else
      match r with
      | c2 :: r1 =>
        if c2 == '|' then
          match textScan [] r1 with
          | some tr => some (acc ++ [c], some tr.1, tr.2)
          | none =>
            match closeSplit r1 with
            | some r2 => some (acc ++ [c], none, r2)
            | none => none
        else
          match closeSplit r with
          | some r2 => some (acc ++ [c], none, r2)
          | none => uriScan (acc ++ [c]) r
      | [] => none

/-- Attempt the full link/embed pattern anchored at the head of the list:
an opening marker, the uri capture, an optional pipe-prefixed text
capture, a closing marker. -/
def tryMatchHere : Line → Option (Line × Option Line × Line)
  | c1 :: c2 :: r =>
    if (c1 == '[' && c2 == '[') || (c1 == '{' && c2 == '{') then uriScan [] r
    else none
  | _ => none

/-- re.search of the link/embed pattern: leftmost match, returning the
uri and optional text captures. -/
def searchMatch : Line → Option (Line × Option Line)
  | [] => none
  | c :: r =>
    match tryMatchHere (c :: r) with
    | some m => some (m.1, m.2.1)
    | none => searchMatch r

/-- re.sub with count 1: replace the leftmost match of the link/embed
pattern in the whole line by the replacement (taken literally, as the
source's replacement strings contain no escapes). -/
def subFirst (rep : Line) : Line → Line
  | [] => []
  | c :: r =>
    match tryMatchHere (c :: r) with
    | some m => rep ++ m.2.2
    | none => c :: subFirst rep r

/-- Python str.rstrip with a pipe argument. -/
def rstripPipes (l : Line) : Line :=
  (l.reverse.dropWhile (fun c => c == '|')).reverse

/-- Build the markdown replacement exactly as convert_links does: strip
trailing pipes from the uri; outside http uris, turn colons into slashes;
a missing text capture falls back to the uri at that point (before the
root slash is added); non-http uris not starting with a slash get one. -/
def mkLink (uri0 : Line) (text0 : Option Line) : Line :=
  let uri1 := rstripPipes uri0
  let uri2 :=
    if leads (S ("http")) uri1 then uri1
    else uri1.map (fun c => if c == ':' then '/' else c)
  let txt := match text0 with
    | some t => t
    | none => uri2
  let uri3 :=
    if leads (S ("http")) uri2 = false && leads (S ("/")) uri2 = false then '/' :: uri2
    else uri2
  '[' :: (txt ++ ']' :: '(' :: uri3) ++ [')']

/-- One line's rewrite loop of convert_links, with explicit fuel (the
source's while loop; none means the fuel ran out before the loop exited).
The boolean records whether the dead-loop diagnostic fired.
Each iteration: search the pattern in the suffix from pos; on a match,
substitute the leftmost whole-line occurrence; rescan from pos; bump the
counter when the position failed to advance; abandon the line once the
counter exceeds two. -/
def linkLoop : Nat → Line → Nat → Nat → Option (Line × Bool)
  | 0, _, _, _ => none
  | Nat.succ fuel, line, pos, counter =>
    let line2 :=
      match searchMatch (line.drop pos) with
      | some ut => subFirst (mkLink ut.1 ut.2) line
      | none => line
    match find_next_link_start line2 pos with
    | none => if counter + 1 > 2 then some (line2, true) else some (line2, false)
    | some p =>
      if p ≤ pos then
        if counter + 1 > 2 then some (line2, true)
        else linkLoop fuel line2 p (counter + 1)
      else linkLoop fuel line2 p counter

/-- convert_links over the document, threading the line index; collects
(line index, original line content) for each dead-loop diagnostic.  The
result is none when the fuel bound did not cover some line's loop. -/
def convertLinksAux (fuel : Nat) : List Line → Nat → Option (List Line × List (Nat × Line))
  | [], _ => some ([], [])
  | l :: ls, i =>
    let first :=
      match find_next_link_start l 0 with
      | none => some (l, false)
      | some p => linkLoop fuel l p 0
    match first with
    | none => none
    | some lb =>
      (convertLinksAux fuel ls (i + 1)).map
        (fun rd => (lb.1 :: rd.1, (if lb.2 then [(i, l)] else []) ++ rd.2))

/-- convert_links of the source, with a fuel parameter bounding the
number of iterations of each line's while loop. -/
def convert_links (fuel : Nat) (lines : List Line) : Option (List Line × List (Nat × Line)) :=
  convertLinksAux fuel lines 0

/-- Does the line start with the raw or escaped opening tag of a WRAP
admonition block? -/
def startsOpen (l : Line) : Bool :=
  leads (S ("<WRAP")) l || leads (S ("\\<WRAP")) l

/-- The literal closing tag. -/
def plainClose : Line := S ("</WRAP>")

/-- The backslash-escaped closing tag left by the upstream converter. -/
def escClose : Line := S ("\\</WRAP\\>")

/-- The initial kind of convert_wrap. -/
def defaultKind : Line := S ("\x7b.is-info\x7d")

/-- The severity classifier wrap_kind of the source: split the tag on
single spaces and test keyword membership rule by rule. -/
def wrap_kind (tag : Line) : Line :=
  let words := splitOnChar ' ' tag
  if words.contains (S ("info")) || words.contains (S ("notice")) then
    S ("\x7b.is-info\x7d")
  else if words.contains (S ("important")) || words.contains (S ("warning")) ||
      words.contains (S ("caution")) then
    S ("\x7b.is-warning\x7d")
  else if words.contains (S ("alert")) || words.contains (S ("danger")) then
    S ("\x7b.is-danger\x7d")
  else if words.contains (S ("tip")) || words.contains (S ("help")) ||
      words.contains (S ("todo")) then
    S ("\x7b.is-danger\x7d")
  else if words.contains (S ("safety")) || words.contains (S ("danger")) then
    S ("\x7b.is-danger\x7d")
  else []

/-- The closing-tag tests and substitutions of one convert_wrap
iteration, together with the final quote-prefix step.  The membership
tests inspect the loop variable lineVar while the substitutions rewrite
the current cell content cur; returns (output line, wrapping state after
the iteration). -/
def closePass (kind : Line) (wrapping : Bool) (lineVar cur : Line) : Line × Bool :=
  let s1 : Line × Bool :=
    if hasSub plainClose lineVar then (replaceAll plainClose kind cur, false)
    else (cur, wrapping)
  let s2 : Line × Bool :=
    if hasSub escClose lineVar then (replaceAll escClose kind s1.1, false)
    else s1
  if s2.2 then (S ("> ") ++ lineVar, s2.2) else s2

/-- One iteration of convert_wrap on one line: on an opening tag, split
off the tag header at the first closing angle bracket (none models the
unpacking error the source raises when that character is absent),
classify the kind, quote-prefix the remainder and set wrapping; then run
the closing-tag pass.  Returns (kind, wrapping, output line). -/
def stepWrap (kind : Line) (wrapping : Bool) (line : Line) : Option (Line × Bool × Line) :=
  if startsOpen line then
    match splitFirst '>' line with
    | none => none
    | some tr =>
      let kind2 := wrap_kind tr.1
      let ob := closePass kind2 true tr.2 (S ("> ") ++ tr.2)
      some (kind2, ob.2, ob.1)
  else
    let ob := closePass kind wrapping line line
    some (kind, ob.2, ob.1)

/-- convert_wrap's fold over the document lines. -/
def convertWrapAux (kind : Line) (wrapping : Bool) : List Line → Option (List Line)
  | [] => some []
  | l :: ls =>
    match stepWrap kind wrapping l with
    | none => none
    | some kwo => (convertWrapAux kwo.1 kwo.2.1 ls).map (fun rest => kwo.2.2 :: rest)

/-- convert_wrap of the source: initial kind is the info class, initial
state idle. -/
def convert_wrap (lines : List Line) : Option (List Line) :=
  convertWrapAux defaultKind false lines

/-- first_heading_or_filename of the source; none models the index error
on an empty document or an empty first line. -/
def first_heading_or_filename (lines : List Line) (pagename : Line) : Option Line :=
  match lines with
  | [] => none
  | l :: _ =>
    match l with
    | [] => none
    | c :: _ => some (if c == '#' then pyStrip (partAfter ' ' l) else pagename)

/-- get_metadata of the source: a single title key whose value is the
title wrapped in literal double quotes. -/
def get_metadata (lines : List Line) (pagename : Line) : Option (List (Line × Line)) :=
  (first_heading_or_filename lines pagename).map
    (fun t => [(S ("title"), '"' :: (t ++ ['"']))])

/-- add_metadata of the source: insert the opening fence at index 0, each
key-value line at index 1, and the closing fence at index length-of-
metadata plus one. -/
def add_metadata (lines : List Line) (metadata : List (Line × Line)) : List Line :=
  insertAt (metadata.length + 1) (S ("---"))
    (metadata.foldl (fun acc kv => insertAt 1 (kv.1 ++ (S (": ")) ++ kv.2) acc)
      (insertAt 0 (S ("---")) lines))

/-- The front-matter synthesis of the pipeline driver: get_metadata
followed by add_metadata. -/
def addFrontMatter (lines : List Line) (pagename : Line) : Option (List Line) :=
  (get_metadata lines pagename).map (add_metadata lines)

/-- The severity classification as the specification words it: an ordered
list of keyword rules, first matching rule wins, checked in the
documented order; an unmatched tag yields no class. -/
def wrapRules : List (List Line × Line) :=
  [ ([S ("info"), S ("notice")], S ("\x7b.is-info\x7d")),
    ([S ("important"), S ("warning"), S ("caution")], S ("\x7b.is-warning\x7d")),
    ([S ("alert"), S ("danger")], S ("\x7b.is-danger\x7d")),
    ([S ("tip"), S ("help"), S ("todo")], S ("\x7b.is-danger\x7d")),
    ([S ("safety"), S ("danger")], S ("\x7b.is-danger\x7d")) ]

/-- Specification-side severity classifier: split the opening tag into
space-separated words and return the class of the first rule one of
whose keywords occurs among the words (case-sensitive membership). -/
def wrapKindSpec (tag : Line) : Line :=
  let words := splitOnChar ' ' tag
  match wrapRules.find? (fun rule => rule.1.any (fun k => words.contains k)) with
  | some rule => rule.2
  | none => []

/-- The replacement fragment regrown on every iteration of the
divergent convert_links run below. -/
def zChunk : Line := ['(', '/', 'z', ')']

/-- k copies of the regrown fragment. -/
def rep : Nat → Line
  | 0 => []
  | k + 1 => zChunk ++ rep k

/-- Head of the divergent line: math opening and the marker that is
matched and regrown inside the math span. -/
def lkHead : Line := ['$', '$', '[', '[', 'b', ']', ']']

/-- Tail of the divergent line: math closing and the marker whose match
is found from the scan position but never substituted. -/
def lkTail : Line := ['$', '$', '[', '[', 'z', '|', '[', 'b', ']', '}', '}']

/-- The line reached after k+1 substitutions of the divergent run. -/
def Lk (k : Nat) : Line := lkHead ++ (rep k ++ lkTail)

/-- A concrete input line on which convert_links never terminates. -/
def badLine : Line := ['$', '$', '[', '[', 'a', ']', ']'] ++ lkTail

/-- The suffix of the divergent line from the scan position onward: it
is the same on every iteration, as the regrowth happens before it. -/
def lkTail2 : Line := ['[', '[', 'z', '|', '[', 'b', ']', '}', '}']

theorem markerScan_inSpans (spans : List (Nat × Nat)) :
    ∀ (n : Nat) (l : Line) (i p : Nat), l.length ≤ n → markerScan spans l i = some p →
      inSpans spans p = false := by
  intro n
  induction n with
  | zero =>
    intro l i p hl h
    cases l with
    | nil => simp [markerScan] at h
    | cons a t => simp at hl
  | succ n ih =>
    intro l i p hl h
    match l with
    | [] => simp [markerScan] at h
    | [a] => simp [markerScan] at h
    | c1 :: c2 :: r =>
      simp only [markerScan] at h
      by_cases hm : ((c1 == '[' && c2 == '[') || (c1 == '{' && c2 == '{')) = true
      · rw [if_pos hm] at h
        by_cases hs : inSpans spans i = true
        · rw [if_pos hs] at h
          refine ih r (i + 2) p ?_ h
          simp only [List.length_cons] at hl
          omega
        · rw [if_neg hs] at h
          cases h
          exact Bool.eq_false_iff.mpr hs
      · rw [if_neg hm] at h
        refine ih (c2 :: r) (i + 1) p ?_ h
        simp only [List.length_cons] at hl ⊢
        omega

/-- Claim C1, amended: a marker whose start position lies inside a math
span of the line is never selected as a scan start: whenever
find_next_link_start returns a position, that position is outside every
math span of the line.  (The claim's stronger form, that the text inside
math spans survives convert_links unchanged, is refuted by
claim_C1_counterexample: the single-occurrence substitution step
replaces the leftmost whole-line pattern match, which can lie inside a
math span.) -/
theorem claim_C1_amended (l : Line) (pos p : Nat)
    (h : find_next_link_start l pos = some p) :
    inSpans (mathSpans l) p = false :=
  markerScan_inSpans (mathSpans l) (l.drop pos).length (l.drop pos) pos p le_rfl h

theorem claim_C1_amended_witness :
    find_next_link_start (S ("$$[[a]]$$[[b]]")) 0 = some 9 ∧
      inSpans (mathSpans (S ("$$[[a]]$$[[b]]"))) 9 = false :=
  ⟨by decide, claim_C1_amended (S ("$$[[a]]$$[[b]]")) 0 9 (by decide)⟩

/-- Claim C1 counterexample: on the line with a math span followed by a
marker, the only scan start is the marker outside the math span, yet the
substitution step rewrites the leftmost whole-line match, which lies
inside the math span — after convert_links the math-span text of the
input line no longer occurs in the output at all. -/
theorem claim_C1_counterexample :
    mathSpans (S ("$$[[a]]$$[[b]]")) = [(0, 9)] ∧
      convert_links 32 [S ("$$[[a]]$$[[b]]")] = some ([S ("$$[b](/b)$$[b](/b)")], []) ∧
      hasSub (S ("$$[[a]]$$")) (S ("$$[b](/b)$$[b](/b)")) = false := by
  refine ⟨by decide, by decide, by decide⟩

/-- Claim C3 counterexample: a marker with no text capture takes the uri
as label before the root slash is prepended, so the label is not the
fully normalized absolute-rooted uri the claim states. -/
theorem claim_C3_counterexample :
    convert_links 32 [S ("[[ns:page]]")] = some ([S ("[ns/page](/ns/page)")], []) ∧
      S ("[ns/page](/ns/page)") ≠ S ("[/ns/page](/ns/page)") := by
  refine ⟨by decide, by decide⟩

/-- Claim C3, amended: for a marker with no text capture the label is the
uri after namespace separators are converted but before the leading
slash is added: rewriting the single-marker line with uri ns:page yields
label ns/page and target /ns/page. -/
theorem claim_C3_amended :
    convert_links 32 [S ("[[ns:page]]")] = some ([S ("[ns/page](/ns/page)")], []) := by
  decide

/-- Claim C5: a labeled internal marker is rewritten with the uri
normalized (colon to slash, leading slash added), and an http uri is
never path-rewritten. -/
theorem claim_C5 :
    convert_links 32 [S ("[[ns:page|Label]]")] = some ([S ("[Label](/ns/page)")], []) ∧
      convert_links 32 [S ("[[http://ex.com|Label]]")] =
        some ([S ("[Label](http://ex.com)")], []) := by
  refine ⟨by decide, by decide⟩

theorem markerScan_none_of_noMarker (spans : List (Nat × Nat)) :
    ∀ (n : Nat) (l : Line) (i : Nat), l.length ≤ n →
      hasSub (S ("[[")) l = false → hasSub (S ("\x7b\x7b")) l = false →
      markerScan spans l i = none := by
  intro n
  induction n with
  | zero =>
    intro l i hl hB hC
    cases l with
    | nil => simp [markerScan]
    | cons a t => simp at hl
  | succ n ih =>
    intro l i hl hB hC
    match l with
    | [] => simp [markerScan]
    | [a] => simp [markerScan]
    | c1 :: c2 :: r =>
      simp only [markerScan]
      by_cases hm : ((c1 == '[' && c2 == '[') || (c1 == '{' && c2 == '{')) = true
      · exfalso
        simp only [Bool.or_eq_true, Bool.and_eq_true, beq_iff_eq] at hm
        rcases hm with ⟨h1, h2⟩ | ⟨h1, h2⟩
        · subst h1; subst h2
          simp [hasSub, leads, S] at hB
        · subst h1; subst h2
          simp [hasSub, leads, S] at hC
      · rw [if_neg hm]
        have hB2 : hasSub (S ("[[")) (c2 :: r) = false := by
          simp only [hasSub, Bool.or_eq_false_iff] at hB ⊢
          exact hB.2
        have hC2 : hasSub (S ("\x7b\x7b")) (c2 :: r) = false := by
          simp only [hasSub, Bool.or_eq_false_iff] at hC ⊢
          exact hC.2
        refine ih (c2 :: r) (i + 1) ?_ hB2 hC2
        simp only [List.length_cons] at hl ⊢
        omega

theorem convertLinksAux_noMarker (fuel : Nat) :
    ∀ (lines : List Line) (i : Nat),
      (∀ l ∈ lines, hasSub (S ("[[")) l = false ∧ hasSub (S ("\x7b\x7b")) l = false) →
      convertLinksAux fuel lines i = some (lines, []) := by
  intro lines
  induction lines with
  | nil => intro i _; rfl
  | cons l ls ih =>
    intro i h
    have hl := h l (by simp)
    have hfind : find_next_link_start l 0 = none := by
      unfold find_next_link_start
      rw [List.drop_zero]
      exact markerScan_none_of_noMarker (mathSpans l) l.length l 0 le_rfl hl.1 hl.2
    simp only [convertLinksAux, hfind]
    rw [ih (i + 1) (fun x hx => h x (by simp [hx]))]
    rfl

/-- Claim C8, amended: convert_links is not idempotent in general (see
claim_C8_counterexample, where a rewrite lands inside a shrunken math
span and leaves a fresh marker for a second pass); the claim's special
case survives: a document whose lines contain no opening marker is
returned unchanged, with no diagnostics. -/
theorem claim_C8_amended (fuel : Nat) (lines : List Line)
    (h : ∀ l ∈ lines, hasSub (S ("[[")) l = false ∧ hasSub (S ("\x7b\x7b")) l = false) :
    convert_links fuel lines = some (lines, []) :=
  convertLinksAux_noMarker fuel lines 0 h

theorem claim_C8_amended_witness :
    convert_links 5 [S ("no markers here $$x$$"), S ("[only] single (brackets)")] =
      some ([S ("no markers here $$x$$"), S ("[only] single (brackets)")], []) :=
  claim_C8_amended 5 [S ("no markers here $$x$$"), S ("[only] single (brackets)")]
    (by decide)

/-- Claim C8 counterexample: applying convert_links twice changes the
line again — the first pass substitutes the leftmost match inside the
math span, leaving a marker just outside the shrunken span that only the
second pass rewrites. -/
theorem claim_C8_counterexample :
    convert_links 32 [S ("$$[[a|[x]\x7d\x7d$$[[b]]")] =
        some ([S ("$$[b](/b)$$[[b]]")], []) ∧
      convert_links 32 [S ("$$[b](/b)$$[[b]]")] =
        some ([S ("$$[b](/b)$$[b](/b)")], []) ∧
      S ("$$[b](/b)$$[[b]]") ≠ S ("$$[b](/b)$$[b](/b)") := by
  refine ⟨by decide, by decide, by decide⟩

/-- Claim C9: title extraction is partial exactly on documents that are
empty or whose first line is empty — there first_heading_or_filename
(and with it the front-matter synthesis) hits the index error — and it
is total whenever line 0 is non-empty. -/
theorem claim_C9 : ∀ (lines : List Line) (pagename : Line),
    ((first_heading_or_filename lines pagename = none) ↔
      (lines = [] ∨ lines.head? = some ([] : Line))) ∧
    ((addFrontMatter lines pagename = none) ↔
      (lines = [] ∨ lines.head? = some ([] : Line))) := by
  intro lines pagename
  cases lines with
  | nil => simp [first_heading_or_filename, addFrontMatter, get_metadata]
  | cons l t =>
    cases l with
    | nil => simp [first_heading_or_filename, addFrontMatter, get_metadata]
    | cons c cs => simp [first_heading_or_filename, addFrontMatter, get_metadata]

/-- Claim C7: the front-matter synthesizer takes the title from line 0
when it starts with a hash (the text after the first space, stripped),
else the fallback page name, wraps it in literal double quotes, and
prepends exactly the three metadata lines; with the two documented
examples. -/
theorem claim_C7 :
    (∀ (c : Char) (cs : Line) (rest : List Line) (pagename : Line),
      addFrontMatter ((c :: cs) :: rest) pagename =
        some ((S ("---")) ::
          ((S ("title: ")) ++
            '"' :: ((if c == '#' then pyStrip (partAfter ' ' (c :: cs)) else pagename)
              ++ ['"'])) ::
          (S ("---")) :: (c :: cs) :: rest)) ∧
    addFrontMatter [S ("# My Title")] (S ("mypage")) =
      some [S ("---"), S ("title: \"My Title\""), S ("---"), S ("# My Title")] ∧
    addFrontMatter [S ("hello")] (S ("mypage")) =
      some [S ("---"), S ("title: \"mypage\""), S ("---"), S ("hello")] := by
  refine ⟨?_, by decide, by decide⟩
  intro c cs rest pagename
  by_cases hc : (c == '#') = true
  · simp [addFrontMatter, get_metadata, first_heading_or_filename, add_metadata,
      insertAt, hc, S]
  · simp only [Bool.not_eq_true] at hc
    simp [addFrontMatter, get_metadata, first_heading_or_filename, add_metadata,
      insertAt, hc, S]

theorem replaceAll_of_not_hasSub (pat rep : Line) :
    ∀ (l : Line), hasSub pat l = false → replaceAll pat rep l = l := by
  intro l
  induction l with
  | nil => intro _; rfl
  | cons c r ih =>
    intro h
    simp only [hasSub, Bool.or_eq_false_iff] at h
    simp only [replaceAll, replaceAllGo, h.1, Bool.false_eq_true, if_false]
    have := ih h.2
    simp only [replaceAll] at this
    rw [this]

/-- Claim C2, amended: while the state is wrapping, a line that does not
open a block and carries no closing tag is prefixed with the quote
marker, but the line carrying the closing tag is not — the tag occurrence
is replaced with the kind captured at block open and the transition to
idle happens before the prefix step, so no prefix is applied there. -/
theorem claim_C2_amended :
    (∀ (kind line : Line), startsOpen line = false →
      hasSub plainClose line = true → hasSub escClose line = false →
      stepWrap kind true line = some (kind, false, replaceAll plainClose kind line)) ∧
    (∀ (kind line : Line), startsOpen line = false →
      hasSub escClose line = true → hasSub plainClose line = false →
      stepWrap kind true line = some (kind, false, replaceAll escClose kind line)) ∧
    (∀ (kind line : Line), startsOpen line = false →
      hasSub plainClose line = false → hasSub escClose line = false →
      stepWrap kind true line = some (kind, true, S ("> ") ++ line)) ∧
    convert_wrap [S ("<WRAP info>"), S ("a"), S ("</WRAP>")] =
      some [S ("> "), S ("> a"), S ("\x7b.is-info\x7d")] := by
  refine ⟨?_, ?_, ?_, by decide⟩
  · intro kind line hopen hp he
    simp [stepWrap, hopen, closePass, hp, he]
  · intro kind line hopen he hp
    simp [stepWrap, hopen, closePass, hp, he, replaceAll_of_not_hasSub plainClose kind line hp]
  · intro kind line hopen hp he
    simp [stepWrap, hopen, closePass, hp, he]

theorem claim_C2_amended_witness :
    stepWrap defaultKind true (S ("x</WRAP>")) =
      some (defaultKind, false, replaceAll plainClose defaultKind (S ("x</WRAP>"))) :=
  claim_C2_amended.1 defaultKind (S ("x</WRAP>")) (by decide) (by decide) (by decide)

/-- Claim C2 counterexample: in a three-line block the line carrying the
closing tag is not prefixed with the quote marker — the claim's
"every line is prefixed while wrapping, including the closing line" fails
on the closing line. -/
theorem claim_C2_counterexample :
    convert_wrap [S ("<WRAP info>"), S ("a"), S ("</WRAP>")] =
        some [S ("> "), S ("> a"), S ("\x7b.is-info\x7d")] ∧
      leads (S ("> ")) (S ("\x7b.is-info\x7d")) = false := by
  refine ⟨by decide, by decide⟩

theorem convertWrapAux_noOpen (kind : Line) :
    ∀ (lines : List Line), (∀ l ∈ lines, startsOpen l = false) →
      convertWrapAux kind false lines =
        some (lines.map (fun l =>
          if hasSub escClose l then replaceAll escClose kind (replaceAll plainClose kind l)
          else replaceAll plainClose kind l)) := by
  intro lines
  induction lines with
  | nil => intro _; rfl
  | cons l ls ih =>
    intro h
    have hopen := h l (by simp)
    have hstep : stepWrap kind false l =
        some (kind, false,
          if hasSub escClose l then replaceAll escClose kind (replaceAll plainClose kind l)
          else replaceAll plainClose kind l) := by
      by_cases hp : hasSub plainClose l = true
      · by_cases he : hasSub escClose l = true
        · simp [stepWrap, hopen, closePass, hp, he]
        · simp only [Bool.not_eq_true] at he
          simp [stepWrap, hopen, closePass, hp, he]
      · simp only [Bool.not_eq_true] at hp
        have hrp := replaceAll_of_not_hasSub plainClose kind l hp
        by_cases he : hasSub escClose l = true
        · simp [stepWrap, hopen, closePass, hp, he, hrp]
        · simp only [Bool.not_eq_true] at he
          simp [stepWrap, hopen, closePass, hp, he, hrp]
    simp only [convertWrapAux, hstep]
    rw [ih (fun x hx => h x (by simp [hx]))]
    rfl

/-- Claim C10: the admonition rewriter never leaves a closing tag behind:
in a document with no opening tag, every closing-tag occurrence (plain or
escaped) is replaced with the initial default info class; and since the
kind variable is never reset on close, a stray closing tag after a
completed block takes that previous block's kind. -/
theorem claim_C10 :
    (∀ (lines : List Line), (∀ l ∈ lines, startsOpen l = false) →
      convert_wrap lines =
        some (lines.map (fun l =>
          if hasSub escClose l then
            replaceAll escClose defaultKind (replaceAll plainClose defaultKind l)
          else replaceAll plainClose defaultKind l))) ∧
    convert_wrap [S ("<WRAP warning>"), S ("</WRAP>"), S ("</WRAP>")] =
      some [S ("> "), S ("\x7b.is-warning\x7d"), S ("\x7b.is-warning\x7d")] := by
  refine ⟨?_, by decide⟩
  intro lines h
  exact convertWrapAux_noOpen defaultKind lines h

theorem claim_C10_witness :
    convert_wrap [S ("a</WRAP>b"), S ("c\\</WRAP\\>d")] =
      some [S ("a\x7b.is-info\x7db"), S ("c\x7b.is-info\x7dd")] := by
  have h := claim_C10.1 [S ("a</WRAP>b"), S ("c\\</WRAP\\>d")] (by decide)
  rw [h]
  decide

/-- Claim C6: the severity classifier agrees everywhere with the
specification's rule table read in order with first-matching-rule-wins
precedence: info/notice give the info class; important/warning/caution
the warning class; alert/danger the danger class; tip/help/todo the
danger class; safety/danger the danger class (duplicating the earlier
rule); an unmatched tag gives the empty class. -/
theorem claim_C6 : ∀ (tag : Line), wrap_kind tag = wrapKindSpec tag := by
  intro tag
  simp only [wrap_kind, wrapKindSpec, wrapRules, List.find?, List.any_cons, List.any_nil,
    Bool.or_false]
  rcases h1 : (splitOnChar ' ' tag).contains (S ("info")) <;>
    rcases h2 : (splitOnChar ' ' tag).contains (S ("notice")) <;>
    rcases h3 : (splitOnChar ' ' tag).contains (S ("important")) <;>
    rcases h4 : (splitOnChar ' ' tag).contains (S ("warning")) <;>
    rcases h5 : (splitOnChar ' ' tag).contains (S ("caution")) <;>
    rcases h6 : (splitOnChar ' ' tag).contains (S ("alert")) <;>
    rcases h7 : (splitOnChar ' ' tag).contains (S ("danger")) <;>
    rcases h8 : (splitOnChar ' ' tag).contains (S ("tip")) <;>
    rcases h9 : (splitOnChar ' ' tag).contains (S ("help")) <;>
    rcases h10 : (splitOnChar ' ' tag).contains (S ("todo")) <;>
    rcases h11 : (splitOnChar ' ' tag).contains (S ("safety")) <;>
    simp [h1, h2, h3, h4, h5, h6, h7, h8, h9, h10, h11]

theorem dropAppend : ∀ (a b : Line) (n : Nat), (a ++ b).drop (a.length + n) = b.drop n := by
  intro a
  induction a with
  | nil => intro b n; simp
  | cons c a ih =>
    intro b n
    have h : (c :: a).length + n = (a.length + n) + 1 := by
      simp only [List.length_cons]; omega
    rw [h, List.cons_append, List.drop_succ_cons, ih]

theorem rep_length : ∀ (k : Nat), (rep k).length = 4 * k := by
  intro k
  induction k with
  | zero => rfl
  | succ k ih =>
    simp only [rep, zChunk, List.length_append, List.length_cons, List.length_nil, ih]
    omega

theorem rep_drop_all (k : Nat) (t : Line) (n : Nat) :
    (rep k ++ t).drop (4 * k + n) = t.drop n := by
  have h : 4 * k + n = (rep k).length + n := by rw [rep_length]
  rw [h, dropAppend]

theorem rep_drop_two : ∀ (k : Nat) (t : Line), (rep (k + 1) ++ t).drop (4 * k + 2) = 'z' :: ')' :: t := by
  intro k
  induction k with
  | zero => intro t; rfl
  | succ k ih =>
    intro t
    have h : 4 * (k + 1) + 2 = 4 + (4 * k + 2) := by omega
    rw [h, ← List.drop_drop]
    have h2 : (rep (k + 1 + 1) ++ t).drop 4 = rep (k + 1) ++ t := by
      simp only [rep, zChunk]
      rfl
    rw [h2, ih]

theorem dollarIdx_skip (c : Char) (l : Line) (i : Nat) (h : (c == '$') = false) :
    dollarIdx (c :: l) i = dollarIdx l (i + 1) := by
  cases l with
  | nil => simp [dollarIdx]
  | cons c2 r => simp [dollarIdx, h]

theorem dollarIdx_pair (l : Line) (i : Nat) :
    dollarIdx ('$' :: '$' :: l) i = i :: dollarIdx l (i + 2) := by
  simp [dollarIdx]

theorem dollarIdx_rep_skip : ∀ (k : Nat) (t : Line) (i : Nat),
    dollarIdx (rep k ++ t) i = dollarIdx t (i + 4 * k) := by
  intro k
  induction k with
  | zero => intro t i; simp [rep]
  | succ k ih =>
    intro t i
    simp only [rep, zChunk, List.cons_append, List.nil_append, List.append_assoc]
    rw [dollarIdx_skip _ _ _ (by decide), dollarIdx_skip _ _ _ (by decide),
      dollarIdx_skip _ _ _ (by decide), dollarIdx_skip _ _ _ (by decide), ih]
    congr 1
    omega

theorem dollarIdx_lkTail2 : ∀ (j : Nat), dollarIdx lkTail2 j = [] := by
  intro j
  simp only [lkTail2]
  rw [dollarIdx_skip _ _ _ (by decide), dollarIdx_skip _ _ _ (by decide),
    dollarIdx_skip _ _ _ (by decide), dollarIdx_skip _ _ _ (by decide),
    dollarIdx_skip _ _ _ (by decide), dollarIdx_skip _ _ _ (by decide),
    dollarIdx_skip _ _ _ (by decide), dollarIdx_skip _ _ _ (by decide)]
  rfl

theorem mathSpans_Lk (m : Nat) : mathSpans (Lk m) = [(0, 4 * m + 9)] := by
  simp only [mathSpans, Lk, lkHead, List.cons_append, List.nil_append]
  rw [dollarIdx_pair]
  rw [dollarIdx_skip _ _ _ (by decide), dollarIdx_skip _ _ _ (by decide),
    dollarIdx_skip _ _ _ (by decide), dollarIdx_skip _ _ _ (by decide),
    dollarIdx_skip _ _ _ (by decide)]
  rw [dollarIdx_rep_skip]
  have hT : lkTail = '$' :: '$' :: lkTail2 := by decide
  rw [hT, dollarIdx_pair, dollarIdx_lkTail2]
  simp only [pairUp]
  congr 1
  · congr 1
    omega

theorem Lk_drop_search (k : Nat) : (Lk (k + 1)).drop (4 * k + 13) = lkTail2 := by
  have h : 4 * k + 13 = lkHead.length + (4 * (k + 1) + 2) := by
    simp only [lkHead, List.length_cons, List.length_nil]
    omega
  rw [Lk, h, dropAppend, rep_drop_all]
  decide

theorem Lk_drop_find (k : Nat) : (Lk (k + 2)).drop (4 * k + 13) = 'z' :: ')' :: lkTail := by
  have h : 4 * k + 13 = lkHead.length + (4 * (k + 1) + 2) := by
    simp only [lkHead, List.length_cons, List.length_nil]
    omega
  rw [Lk, h, dropAppend]
  exact rep_drop_two (k + 1) lkTail

theorem markerScan_zTail (i : Nat) (spans : List (Nat × Nat))
    (h : inSpans spans (i + 4) = false) :
    markerScan spans ('z' :: ')' :: lkTail) i = some (i + 4) := by
  have hT : lkTail = '$' :: '$' :: lkTail2 := by decide
  rw [hT]
  show markerScan spans ('z' :: ')' :: '$' :: '$' :: lkTail2) i = some (i + 4)
  rw [show markerScan spans ('z' :: ')' :: '$' :: '$' :: lkTail2) i =
      markerScan spans (')' :: '$' :: '$' :: lkTail2) (i + 1) from by
    simp [markerScan]]
  rw [show markerScan spans (')' :: '$' :: '$' :: lkTail2) (i + 1) =
      markerScan spans ('$' :: '$' :: lkTail2) (i + 1 + 1) from by
    simp [markerScan]]
  rw [show markerScan spans ('$' :: '$' :: lkTail2) (i + 1 + 1) =
      markerScan spans ('$' :: lkTail2) (i + 1 + 1 + 1) from by
    simp [markerScan, lkTail2]]
  rw [show markerScan spans ('$' :: lkTail2) (i + 1 + 1 + 1) =
      markerScan spans lkTail2 (i + 1 + 1 + 1 + 1) from by
    simp [markerScan, lkTail2]]
  have h4 : i + 1 + 1 + 1 + 1 = i + 4 := by omega
  rw [h4]
  simp only [lkTail2, markerScan, h, Bool.false_eq_true, if_false, if_true]
  simp

theorem findNext_Lk (k : Nat) :
    find_next_link_start (Lk (k + 2)) (4 * k + 13) = some (4 * k + 17) := by
  unfold find_next_link_start
  rw [mathSpans_Lk (k + 2), Lk_drop_find k]
  have h : inSpans [(0, 4 * (k + 2) + 9)] (4 * k + 13 + 4) = false := by
    simp only [inSpans, List.any_cons, List.any_nil, Bool.or_false]
    simp only [Bool.and_eq_false_iff, decide_eq_false_iff_not]
    right
    omega
  rw [markerScan_zTail _ _ h]

theorem subFirst_Lk (k : Nat) :
    subFirst ['[', '[', 'b', ']', ']', '(', '/', 'z', ')'] (Lk (k + 1)) = Lk (k + 2) := by
  simp only [Lk, lkHead, List.cons_append, List.nil_append]
  rw [show subFirst ['[', '[', 'b', ']', ']', '(', '/', 'z', ')']
      ('$' :: '$' :: '[' :: '[' :: 'b' :: ']' :: ']' :: (rep (k + 1) ++ lkTail)) =
      '$' :: subFirst ['[', '[', 'b', ']', ']', '(', '/', 'z', ')']
        ('$' :: '[' :: '[' :: 'b' :: ']' :: ']' :: (rep (k + 1) ++ lkTail)) from by
    simp [subFirst, tryMatchHere]]
  rw [show subFirst ['[', '[', 'b', ']', ']', '(', '/', 'z', ')']
      ('$' :: '[' :: '[' :: 'b' :: ']' :: ']' :: (rep (k + 1) ++ lkTail)) =
      '$' :: subFirst ['[', '[', 'b', ']', ']', '(', '/', 'z', ')']
        ('[' :: '[' :: 'b' :: ']' :: ']' :: (rep (k + 1) ++ lkTail)) from by
    simp [subFirst, tryMatchHere]]
  rw [show subFirst ['[', '[', 'b', ']', ']', '(', '/', 'z', ')']
      ('[' :: '[' :: 'b' :: ']' :: ']' :: (rep (k + 1) ++ lkTail)) =
      '[' :: '[' :: 'b' :: ']' :: ']' :: '(' :: '/' :: 'z' :: ')' :: (rep (k + 1) ++ lkTail) from by
    simp [subFirst, tryMatchHere, uriScan, closeSplit]]
  simp [rep, zChunk]

theorem linkLoop_Lk : ∀ (n k : Nat), linkLoop n (Lk (k + 1)) (4 * k + 13) 0 = none := by
  intro n
  induction n with
  | zero => intro k; rfl
  | succ n ih =>
    intro k
    have hsearch : searchMatch ((Lk (k + 1)).drop (4 * k + 13)) =
        some (['z'], some ['[', 'b', ']']) := by
      rw [Lk_drop_search]
      decide
    have hmk : mkLink ['z'] (some ['[', 'b', ']']) =
        ['[', '[', 'b', ']', ']', '(', '/', 'z', ')'] := by decide
    have hfind : find_next_link_start (Lk (k + 2)) (4 * k + 13) = some (4 * k + 17) :=
      findNext_Lk k
    show linkLoop (n + 1) (Lk (k + 1)) (4 * k + 13) 0 = none
    rw [linkLoop, hsearch]
    simp only [hmk, subFirst_Lk k, hfind]
    rw [if_neg (by omega)]
    have h17 : 4 * k + 17 = 4 * (k + 1) + 13 := by omega
    rw [h17]
    exact ih (k + 1)

theorem linkLoop_badLine : ∀ (n : Nat), linkLoop n badLine 9 0 = none := by
  intro n
  cases n with
  | zero => rfl
  | succ n =>
    have hstep : linkLoop (n + 1) badLine 9 0 = linkLoop n (Lk 1) 13 0 := rfl
    rw [hstep]
    exact linkLoop_Lk n 0

/-- Claim C4 fails on the code: convert_links does not terminate on
every input.  On the line below, every iteration substitutes the
leftmost whole-line pattern match — which lies inside the math span —
with a replacement that itself contains the same match, so the line
regrows by four characters while the marker at the scan position shifts
forward by four; the position always advances, the dead-loop counter
never fires, and the while loop never exits: for every fuel bound the
loop is still running.  The guard itself does work where the position
truly stalls: the lone-open line is abandoned after three stalled
iterations with a diagnostic carrying its index and original content,
and the pass still rewrites the following line. -/
theorem claim_C4 :
    badLine = S ("$$[[a]]$$[[z|[b]\x7d\x7d") ∧
    (∀ (fuel : Nat), convert_links fuel [badLine] = none) ∧
    convert_links 8 [S ("[[x"), S ("ok [[a]] ok")] =
      some ([S ("[[x"), S ("ok [a](/a) ok")], [(0, S ("[[x"))]) := by
  refine ⟨by decide, ?_, by decide⟩
  intro fuel
  have h9 : find_next_link_start badLine 0 = some 9 := by decide
  simp only [convert_links, convertLinksAux, h9, linkLoop_badLine fuel]
